import Mathlib

/-!
Verification of the Trivia repository game-session core.

This file gives a shallow embedding, in Lean, of the parts of the source that
the specification talks about:

- src/lib/scoring.ts : the ScoringConfig record, calculatePoints and
  calculateAccuracy;
- src/routes/api.games.$roomCode.answer.ts : the scoring step of the answer
  POST handler (correctness check, the streak scan over the last two stored
  answers, the zero points on a wrong or missing submission);
- the GameRoom durable object (the session actor): its GameState record and
  the handlers handleInit, handleJoin, handleStart, handleAnswer, the timer
  tick, endQuestion, nextQuestion, endGame, the websocket attach and detach
  paths, and handleGetResults.

JavaScript numbers appear only at integral values in these code paths, so they
are embedded as Nat; Nat subtraction coincides with the guarded
Math.max(0, a - b) pattern of the source. Math.ceil(t / 1000) on a Nat is
(t + 999) / 1000 and Math.round of a nonnegative ratio a / b is
(2 * a + b) / (2 * b) under Nat division. Nondeterministic inputs of the
source (crypto.randomUUID, the Math.random shuffle of the fixed in-file
question bank) are passed to the embedded functions as explicit arguments.
A JS Map is embedded as an insertion-ordered association list.
-/

namespace Trivia

/-- Scoring configuration record from src/lib/scoring.ts. -/
structure ScoringConfig where
  basePoints : Nat
  speedBonusPerSecond : Nat
  streakBonus : Nat
  streakThreshold : Nat
  deriving Repr, DecidableEq

/-- Default configuration: 100 base, 10 per second, 50 streak bonus at 3. -/
def defaultScoringConfig : ScoringConfig :=
  { basePoints := 100, speedBonusPerSecond := 10, streakBonus := 50, streakThreshold := 3 }

/-- Function calculatePoints of src/lib/scoring.ts. The speed bonus counts the
seconds remaining after Math.ceil(timeTakenMs / 1000), and the streak bonus is
added when consecutiveCorrect is at least streakThreshold. -/
def calculatePoints (timeTakenMs timeLimit consecutiveCorrect : Nat)
    (config : ScoringConfig) : Nat :=
  let secondsTaken := (timeTakenMs + 999) / 1000
  let secondsRemaining := timeLimit - secondsTaken
  let points := config.basePoints + secondsRemaining * config.speedBonusPerSecond
  if config.streakThreshold ≤ consecutiveCorrect then points + config.streakBonus
  else points

/-- Function calculateAccuracy of src/lib/scoring.ts:
Math.round((correct / total) * 100) behind a zero-total guard. -/
def calculateAccuracy (correct total : Nat) : Nat :=
  if total = 0 then 0
  else (2 * (correct * 100) + total) / (2 * total)

/-- Streak scan of the answer POST route: walk the stored answers of the
player, most recent first, and count the leading run of correct ones,
stopping at the first incorrect one. -/
def streakScan : List Bool → Nat
  | [] => 0
  | b :: rest => if b then streakScan rest + 1 else 0

/-- Streak counter computed by the answer POST route. The route fetches only
the last two answer rows (orderBy id DESC, limit 2) before the scan. -/
def routeConsecutiveCorrect (prevAnswersDesc : List Bool) : Nat :=
  streakScan (prevAnswersDesc.take 2)

/-- Points computed by POST /api/games/$roomCode/answer: pointsEarned stays 0
unless the submitted option strictly equals the correct answer of the
question; on a correct answer it is calculatePoints at the default
configuration with the streak derived from the previous answer rows. -/
def routePointsEarned (answer : Option String) (correctAnswer : String)
    (timeTakenMs timePerQuestion : Nat) (prevAnswersDesc : List Bool) : Nat :=
  if answer = some correctAnswer then
    calculatePoints timeTakenMs timePerQuestion
      (routeConsecutiveCorrect prevAnswersDesc) defaultScoringConfig
  else 0

/-- Player record of the GameRoom durable object. The field ws of the source
holds WebSocket or null; here it records whether a live channel exists. -/
structure Player where
  id : String
  name : String
  isHost : Bool
  score : Nat
  ws : Bool
  deriving Repr, DecidableEq

/-- Question record of the GameRoom durable object. -/
structure Question where
  id : Nat
  text : String
  optionA : String
  optionB : String
  optionC : String
  optionD : String
  correctAnswer : String
  commentary : String
  deriving Repr, DecidableEq

/-- Answer record of the GameRoom durable object. -/
structure Answer where
  playerId : String
  questionId : Nat
  answer : Option String
  isCorrect : Bool
  timeTakenMs : Nat
  deriving Repr, DecidableEq

/-- Status field of GameState. -/
inductive Status where
  | lobby
  | playing
  | finished
  deriving Repr, DecidableEq

/-- GameState record of the GameRoom durable object (first revision in the
source). The players Map is an insertion-ordered association list and the
currentQuestionAnswers Set is the list of player ids added so far. -/
structure GameState where
  roomCode : String
  status : Status
  players : List (String × Player)
  maxPlayers : Nat
  questionCount : Nat
  currentQuestionIndex : Nat
  questions : List Question
  answers : List Answer
  currentQuestionAnswers : List String
  timer : Option Nat
  deriving Repr, DecidableEq

/-- Map.get on the players map: first binding with the given key. -/
def mapFind (m : List (String × Player)) (k : String) : Option Player :=
  match m with
  | [] => none
  | kv :: rest => if kv.1 = k then some kv.2 else mapFind rest k

/-- In-place mutation of the player stored under a key, as the source does
with the object returned by Map.get; absent keys are untouched. -/
def mapUpdate (m : List (String × Player)) (k : String) (f : Player → Player) :
    List (String × Player) :=
  m.map fun kv => if kv.1 = k then (kv.1, f kv.2) else kv

/-- Map.set: replace in place when the key exists, else append the binding. -/
def mapSet (m : List (String × Player)) (k : String) (v : Player) :
    List (String × Player) :=
  if (mapFind m k).isSome then mapUpdate m k fun _ => v
  else m ++ [(k, v)]

/-- Handler handleInit of GameRoom: store the configuration and add the host
player. The id from crypto.randomUUID is passed in as hostId. -/
def handleInit (s : GameState) (roomCode hostName : String)
    (questionCount maxPlayers : Nat) (hostId : String) : GameState :=
  { s with
      roomCode := roomCode,
      questionCount := questionCount,
      maxPlayers := maxPlayers,
      players := mapSet s.players hostId
        { id := hostId, name := hostName, isHost := true, score := 0, ws := false } }

/-- Handler handleJoin of GameRoom: reject unless the status is lobby, else
add a player under the freshly generated id (passed in as playerId) and
broadcast the roster. The broadcast carries no state change. -/
def handleJoin (s : GameState) (playerId playerName : String) :
    Except String GameState :=
  if s.status ≠ Status.lobby then Except.error "Game already started"
  else Except.ok { s with
    players := mapSet s.players playerId
      { id := playerId, name := playerName, isHost := false, score := 0, ws := false } }

/-- The expression player?.isHost of handleStart: false when the caller id is
unknown. -/
def startCallerIsHost (s : GameState) (playerId : String) : Bool :=
  match mapFind s.players playerId with
  | some p => p.isHost
  | none => false

/-- Method loadQuestions of GameRoom: shuffle the fixed in-file question bank
and keep the first questionCount entries. The Math.random shuffle is passed in
as shuffledBank; the bank itself is the hardcoded list of the source, so only
its order varies, never its length. -/
def loadQuestions (s : GameState) (shuffledBank : List Question) : GameState :=
  { s with questions := shuffledBank.take s.questionCount }

/-- Length of the hardcoded question bank inside GameRoom.loadQuestions: the
source lists questions with ids 1 through 110. -/
def questionBankLength : Nat := 110

/-- Handler handleStart of GameRoom: reject when the caller is not the host or
fewer than two players are in the map; otherwise set the status to playing and
load the questions. The source performs no phase check here. The deferred
first-question send happens through a later Event.advance. -/
def handleStart (s : GameState) (playerId : String) (shuffledBank : List Question) :
    Except String GameState :=
  if !startCallerIsHost s playerId then Except.error "Only host can start"
  else if s.players.length < 2 then Except.error "Need at least 2 players"
  else Except.ok (loadQuestions { s with status := Status.playing } shuffledBank)

/-- Per-answer points inside GameRoom.endQuestion:
Math.floor(1000 + Math.max(0, 1000 - timeTakenMs)). Math.floor is the identity
at these integral values and Nat subtraction is the guarded max. -/
def endQuestionPoints (timeTakenMs : Nat) : Nat :=
  let timeBonus := 1000 - timeTakenMs
  1000 + timeBonus

/-- Scoring body of the endQuestion loop for one stored answer: on a correct
answer the points are added to the score of that player; an unknown player id
or an incorrect answer changes nothing. -/
def applyAnswerScore (players : List (String × Player)) (a : Answer) :
    List (String × Player) :=
  if a.isCorrect then
    mapUpdate players a.playerId fun p =>
      { p with score := p.score + endQuestionPoints a.timeTakenMs }
  else players

/-- Method endQuestion of GameRoom: score every stored answer of the current
question and advance currentQuestionIndex. When currentQuestionIndex is out of
range the source dereferences undefined and throws before touching the state
(the caller catches), so the state is returned unchanged; the timerInterval
handle it clears lives outside GameState. -/
def endQuestion (s : GameState) : GameState :=
  match s.questions[s.currentQuestionIndex]? with
  | none => s
  | some question =>
    let currentAnswers := s.answers.filter fun a => a.questionId = question.id
    { s with
        players := currentAnswers.foldl applyAnswerScore s.players,
        currentQuestionIndex := s.currentQuestionIndex + 1 }

/-- Method endGame of GameRoom: mark the session finished and broadcast the
ranked list (the broadcast carries no state change). -/
def endGame (s : GameState) : GameState :=
  { s with status := Status.finished }

/-- Method nextQuestion of GameRoom: past the last question it ends the game,
otherwise it clears the per-question answer set, resets the 15 second timer
and broadcasts the question. -/
def nextQuestion (s : GameState) : GameState :=
  if s.questions.length ≤ s.currentQuestionIndex then endGame s
  else { s with currentQuestionAnswers := [], timer := some 15 }

/-- Handler handleAnswer of GameRoom: a player already in the per-question
answer set is ignored; otherwise the answer is stored with its correctness and
the question ends early once every player in the map has answered. When
currentQuestionIndex is out of range the source throws on the undefined
question before any mutation and the websocket dispatcher catches. -/
def handleAnswer (s : GameState) (playerId : String) (answer : Option String)
    (timeTakenMs : Nat) : GameState :=
  if s.currentQuestionAnswers.contains playerId then s
  else
    match s.questions[s.currentQuestionIndex]? with
    | none => s
    | some question =>
      let s1 : GameState := { s with
        answers := s.answers ++
          [{ playerId := playerId, questionId := question.id, answer := answer,
             isCorrect := answer == some question.correctAnswer,
             timeTakenMs := timeTakenMs }],
        currentQuestionAnswers := s.currentQuestionAnswers ++ [playerId] }
      if s1.currentQuestionAnswers.length = s1.players.length then endQuestion s1
      else s1

/-- One tick of the startQuestionTimer interval: a missing or expired timer
ends the question, otherwise the countdown decrements and is broadcast. The
early-finish branch of this revision compares Array.size, which is undefined
on a JS array, with the player count, so it never fires and is omitted. -/
def timerTick (s : GameState) : GameState :=
  match s.timer with
  | none => endQuestion s
  | some t =>
    if t = 0 then endQuestion s
    else { s with timer := some (t - 1) }

/-- Websocket attach path of handleWebSocket: a known player gets the fresh
channel recorded; the roster, current question and timer replays it sends are
broadcasts without state change. -/
def attachChannel (s : GameState) (playerId : String) : GameState :=
  { s with players := mapUpdate s.players playerId fun p => { p with ws := true } }

/-- Handler webSocketClose: drop the channel reference of the owning player;
the player record and score stay. -/
def detachChannel (s : GameState) (playerId : String) : GameState :=
  { s with players := mapUpdate s.players playerId fun p => { p with ws := false } }

/-- Inbound events of the session actor. Ids from crypto.randomUUID and the
shuffled question bank ride on the event. Event.advance is the deferred
nextQuestion callback scheduled by handleStart and endQuestion. -/
inductive Event where
  | init (roomCode hostName : String) (questionCount maxPlayers : Nat) (hostId : String)
  | join (playerId playerName : String)
  | start (playerId : String) (shuffledBank : List Question)
  | answer (playerId : String) (ans : Option String) (timeTakenMs : Nat)
  | tick
  | advance
  | attach (playerId : String)
  | detach (playerId : String)

/-- One serialized event processed to completion by the actor. A rejected
join or start leaves the state unchanged. -/
def step (s : GameState) : Event → GameState
  | Event.init rc hn qc mp hostId => handleInit s rc hn qc mp hostId
  | Event.join pid name =>
    match handleJoin s pid name with
    | Except.ok s2 => s2
    | Except.error _ => s
  | Event.start pid bank =>
    match handleStart s pid bank with
    | Except.ok s2 => s2
    | Except.error _ => s
  | Event.answer pid a t => handleAnswer s pid a t
  | Event.tick => timerTick s
  | Event.advance => nextQuestion s
  | Event.attach pid => attachChannel s pid
  | Event.detach pid => detachChannel s pid

/-- Per-player entry of the handleGetResults payload. -/
structure PlayerStats where
  id : String
  name : String
  score : Nat
  correctAnswers : Nat
  totalAnswers : Nat
  accuracy : Nat
  deriving Repr, DecidableEq

/-- Statistics block of one player in handleGetResults: filter the stored
answers of that player, count the correct ones and guard the rounded accuracy
ratio behind totalAnswers > 0. -/
def playerStats (s : GameState) (kv : String × Player) : PlayerStats :=
  let pAnswers := s.answers.filter fun a => a.playerId = kv.2.id
  let correctAnswers := (pAnswers.filter fun a => a.isCorrect).length
  let totalAnswers := pAnswers.length
  { id := kv.2.id, name := kv.2.name, score := kv.2.score,
    correctAnswers := correctAnswers, totalAnswers := totalAnswers,
    accuracy :=
      if 0 < totalAnswers then (2 * (correctAnswers * 100) + totalAnswers) / (2 * totalAnswers)
      else 0 }

/-- Results payload of handleGetResults. The averageScore division of the
source is a JS float; it is carried here as the exact ratio. -/
structure GameResults where
  players : List PlayerStats
  winner : Option PlayerStats
  totalQuestions : Nat
  averageScore : Rat
  highestScore : Nat

/-- Handler handleGetResults of GameRoom: per-player statistics sorted by
descending score (the JS sort is stable, as is mergeSort), the winner as the
head of that list, and the aggregate statistics. -/
def handleGetResults (s : GameState) : GameResults :=
  let playersWithStats :=
    (s.players.map fun kv => playerStats s kv).mergeSort fun a b => b.score ≤ a.score
  let scores := playersWithStats.map fun p => p.score
  { players := playersWithStats,
    winner := playersWithStats.head?,
    totalQuestions := s.questions.length,
    averageScore :=
      if 0 < scores.length then ((scores.foldl (fun a b => a + b) 0 : Nat) : Rat) / (scores.length : Rat)
      else 0,
    highestScore :=
      if 0 < scores.length then scores.foldl max 0 else 0 }

/-- Concrete playing state with one player who already answered the current
question. -/
def dupState : GameState :=
  { roomCode := "ROOM", status := Status.playing,
    players := [("p1", { id := "p1", name := "Alice", isHost := true, score := 120, ws := true })],
    maxPlayers := 4, questionCount := 1, currentQuestionIndex := 0,
    questions := [{ id := 1, text := "Q1", optionA := "London", optionB := "Berlin",
                    optionC := "Paris", optionD := "Madrid", correctAnswer := "C",
                    commentary := "c" }],
    answers := [{ playerId := "p1", questionId := 1, answer := some "C",
                  isCorrect := true, timeTakenMs := 2000 }],
    currentQuestionAnswers := ["p1"],
    timer := some 9 }

/-- Question literal shared by the concrete states below, taken from the
hardcoded bank of loadQuestions. -/
def bankQuestion : Question :=
  { id := 1, text := "What is the capital of France?", optionA := "London",
    optionB := "Berlin", optionC := "Paris", optionD := "Madrid",
    correctAnswer := "C", commentary := "c" }

/-- Concrete one-question playing state: its single player answered correctly
at 3000 ms and the question window has closed. -/
def c3State : GameState :=
  { roomCode := "AAAA", status := Status.playing,
    players := [("p1", { id := "p1", name := "Alice", isHost := true, score := 0, ws := true })],
    maxPlayers := 4, questionCount := 1, currentQuestionIndex := 0,
    questions := [bankQuestion],
    answers := [{ playerId := "p1", questionId := 1, answer := some "C",
                  isCorrect := true, timeTakenMs := 3000 }],
    currentQuestionAnswers := ["p1"],
    timer := some 0 }

/-- Host and guest records shared by the concrete states below. -/
def hostPlayer : Player :=
  { id := "h", name := "Host", isHost := true, score := 0, ws := true }

/-- Non-host guest record. -/
def guestPlayer : Player :=
  { id := "g", name := "Guest", isHost := false, score := 0, ws := true }

/-- Concrete mid-game state for C4: the game is already playing. -/
def c4PlayingState : GameState :=
  { roomCode := "BBBB", status := Status.playing,
    players := [("h", hostPlayer), ("g", guestPlayer)],
    maxPlayers := 4, questionCount := 1, currentQuestionIndex := 0,
    questions := [bankQuestion], answers := [], currentQuestionAnswers := [],
    timer := some 7 }

/-- Concrete full lobby for C5: four players already joined and maxPlayers is
4. -/
def c5FullLobby : GameState :=
  { roomCode := "CCCC", status := Status.lobby,
    players := [("h", hostPlayer), ("g", guestPlayer),
                ("p3", { id := "p3", name := "Cara", isHost := false, score := 0, ws := false }),
                ("p4", { id := "p4", name := "Dan", isHost := false, score := 0, ws := false })],
    maxPlayers := 4, questionCount := 10, currentQuestionIndex := 0,
    questions := [], answers := [], currentQuestionAnswers := [], timer := none }

/-- Concrete state for C7: two players, only the first answered before the
window closed, and the countdown has reached 0 so the next tick ends the
question. -/
def c7State : GameState :=
  { roomCode := "DDDD", status := Status.playing,
    players := [("p1", { id := "p1", name := "Alice", isHost := true, score := 0, ws := true }),
                ("p2", { id := "p2", name := "Bob", isHost := false, score := 0, ws := true })],
    maxPlayers := 4, questionCount := 1, currentQuestionIndex := 0,
    questions := [bankQuestion],
    answers := [{ playerId := "p1", questionId := 1, answer := some "C",
                  isCorrect := true, timeTakenMs := 500 }],
    currentQuestionAnswers := ["p1"],
    timer := some 0 }

/-- Concrete finished state used by the C10 witness: the second player never
answered anything. -/
def c10State : GameState :=
  { roomCode := "ROOM", status := Status.finished,
    players := [("p1", { id := "p1", name := "Alice", isHost := true, score := 2000, ws := true }),
                ("p2", { id := "p2", name := "Bob", isHost := false, score := 0, ws := false })],
    maxPlayers := 4, questionCount := 1, currentQuestionIndex := 1,
    questions := [{ id := 1, text := "Q1", optionA := "London", optionB := "Berlin",
                    optionC := "Paris", optionD := "Madrid", correctAnswer := "C",
                    commentary := "c" }],
    answers := [{ playerId := "p1", questionId := 1, answer := some "C",
                  isCorrect := true, timeTakenMs := 0 }],
    currentQuestionAnswers := ["p1"],
    timer := none }

/-- Second question of the double-answer trace, taken from the hardcoded bank
of loadQuestions. -/
def bankQuestion2 : Question :=
  { id := 2, text := "Which planet is known as the Red Planet?", optionA := "Venus",
    optionB := "Mars", optionC := "Jupiter", optionD := "Saturn",
    correctAnswer := "B", commentary := "c" }

/-- Concrete state inside the reveal delay of question 1 of a 4-player game:
endQuestion has scored question 1 and advanced currentQuestionIndex to 1, but
the deferred nextQuestion has not yet run, so currentQuestionAnswers still
holds the ids of the players who answered question 1; players c and d did not
answer it, and d never answers anything. -/
def revealDelayState : GameState :=
  { roomCode := "EEEE", status := Status.playing,
    players := [("a", { id := "a", name := "Ann", isHost := true, score := 1900, ws := true }),
                ("b", { id := "b", name := "Ben", isHost := false, score := 1800, ws := true }),
                ("c", { id := "c", name := "Cody", isHost := false, score := 0, ws := true }),
                ("d", { id := "d", name := "Dana", isHost := false, score := 0, ws := false })],
    maxPlayers := 4, questionCount := 2, currentQuestionIndex := 1,
    questions := [bankQuestion, bankQuestion2],
    answers := [{ playerId := "a", questionId := 1, answer := some "C", isCorrect := true,
                  timeTakenMs := 100 },
                { playerId := "b", questionId := 1, answer := some "C", isCorrect := true,
                  timeTakenMs := 200 }],
    currentQuestionAnswers := ["a", "b"],
    timer := some 0 }

/-- The double-answer trace: player c clicks during the reveal delay (the
stale answer set admits the click and records it against question 2, the new
current index), the deferred nextQuestion then clears the per-question set and
starts question 2, and c answers question 2 a second time. -/
def doubleAnswerState : GameState :=
  handleAnswer
    (nextQuestion (handleAnswer revealDelayState "c" (some "B") 500))
    "c" (some "B") 800

/-- Freshness of the ids generated by crypto.randomUUID: the init and join
events carry the generated id, and a generated id never collides with an
existing key of the players map. -/
def Event.freshIds : Event → GameState → Prop
  | Event.init _ _ _ _ hostId, s => mapFind s.players hostId = none
  | Event.join pid _, s => mapFind s.players pid = none
  | _, _ => True

/-- Events of a running session: everything except the one-time init call that
the creation collaborator performs before handing the room out. -/
def Event.isSessionEvent : Event → Prop
  | Event.init _ _ _ _ _ => False
  | _ => True

/-- Every start event shuffles the same fixed in-source bank, so the shuffled
list it carries always has the bank length. -/
def Event.fixedBank : Event → Prop
  | Event.start _ bank => bank.length = questionBankLength
  | _ => True

/-- Question-index invariant: the current index stays within the loaded
question list, and that list is empty (before the first start) or has exactly
the length loadQuestions gives it. -/
def IndexInv (s : GameState) : Prop :=
  s.currentQuestionIndex ≤ s.questions.length ∧
  (s.questions.length = 0 ∨
    s.questions.length = min s.questionCount questionBankLength)

/-! Helper lemmas about the association-list players map. -/

theorem mapFind_mapUpdate (m : List (String × Player)) (k j : String) (f : Player → Player) :
    mapFind (mapUpdate m k f) j = if j = k then (mapFind m j).map f else mapFind m j := by
  induction m with
  | nil => by_cases h : j = k <;> simp [mapFind, mapUpdate, h]
  | cons kv rest ih =>
    simp only [mapUpdate] at ih ⊢
    by_cases hj : kv.1 = j
    · by_cases hk : kv.1 = k
      · have hjk : j = k := by rw [← hj]; exact hk
        simp [mapFind, hj, hk, hjk]
      · have hjk : ¬ j = k := fun h => hk (by rw [hj]; exact h)
        simp [mapFind, hj, hk, hjk]
    · by_cases hk : kv.1 = k
      · have hkj : ¬ k = j := fun h => hj (by rw [hk]; exact h)
        have hjk : ¬ j = k := fun h => hkj h.symm
        simp [mapFind, hj, hk, hkj, hjk, ih]
      · simp [mapFind, hj, hk, ih]

theorem mapFind_append_some (m l : List (String × Player)) (k : String) (p : Player)
    (h : mapFind m k = some p) : mapFind (m ++ l) k = some p := by
  induction m with
  | nil => simp [mapFind] at h
  | cons kv rest ih =>
    by_cases hk : kv.1 = k
    · simp [mapFind, hk] at h ⊢; exact h
    · simp [mapFind, hk] at h ⊢; exact ih h

theorem mapFind_foldl_score_mono (l : List Answer) (m : List (String × Player))
    (k : String) (p : Player) (hp : mapFind m k = some p) :
    ∃ p2, mapFind (l.foldl applyAnswerScore m) k = some p2 ∧ p.score ≤ p2.score := by
  induction l generalizing m p with
  | nil => exact ⟨p, hp, le_refl _⟩
  | cons a rest ih =>
    simp only [List.foldl_cons]
    by_cases hc : a.isCorrect
    · by_cases hk : k = a.playerId
      · have h2 : mapFind (applyAnswerScore m a) k =
            some { p with score := p.score + endQuestionPoints a.timeTakenMs } := by
          unfold applyAnswerScore
          rw [if_pos hc, mapFind_mapUpdate, if_pos hk, hp]
          rfl
        obtain ⟨p2, h3, h4⟩ := ih _ _ h2
        exact ⟨p2, h3, le_trans (Nat.le_add_right _ _) h4⟩
      · have h2 : mapFind (applyAnswerScore m a) k = some p := by
          unfold applyAnswerScore
          rw [if_pos hc, mapFind_mapUpdate, if_neg hk, hp]
        exact ih _ _ h2
    · have h2 : applyAnswerScore m a = m := by
        unfold applyAnswerScore
        rw [if_neg hc]
      rw [h2]; exact ih _ _ hp

theorem mapFind_foldl_not_mentioned (l : List Answer) (m : List (String × Player))
    (k : String) (hk : ∀ a ∈ l, a.playerId ≠ k) :
    mapFind (l.foldl applyAnswerScore m) k = mapFind m k := by
  induction l generalizing m with
  | nil => rfl
  | cons a rest ih =>
    simp only [List.foldl_cons]
    rw [ih _ fun x hx => hk x (List.mem_cons_of_mem _ hx)]
    have hka : ¬ k = a.playerId := fun h => hk a (List.mem_cons_self _ _) h.symm
    by_cases hc : a.isCorrect
    · simp [applyAnswerScore, hc, mapFind_mapUpdate, hka]
    · simp [applyAnswerScore, hc]

theorem streakScan_le_length (l : List Bool) : streakScan l ≤ l.length := by
  induction l with
  | nil => simp [streakScan]
  | cons b rest ih =>
    by_cases hb : b
    · simp only [streakScan, hb, if_true, List.length_cons]
      omega
    · simp [streakScan, hb]

theorem endQuestion_questions (s : GameState) : (endQuestion s).questions = s.questions := by
  unfold endQuestion
  cases s.questions[s.currentQuestionIndex]? <;> rfl

theorem endQuestion_questionCount (s : GameState) :
    (endQuestion s).questionCount = s.questionCount := by
  unfold endQuestion
  cases s.questions[s.currentQuestionIndex]? <;> rfl

theorem endQuestion_index_le (s : GameState) {n : Nat} (h : n ≤ s.currentQuestionIndex) :
    n ≤ (endQuestion s).currentQuestionIndex := by
  unfold endQuestion
  cases s.questions[s.currentQuestionIndex]? with
  | none => exact h
  | some q => exact Nat.le_succ_of_le h

theorem endQuestion_index_bound (s : GameState)
    (h : s.currentQuestionIndex ≤ s.questions.length) :
    (endQuestion s).currentQuestionIndex ≤ (endQuestion s).questions.length := by
  unfold endQuestion
  cases hq : s.questions[s.currentQuestionIndex]? with
  | none => exact h
  | some q =>
    show s.currentQuestionIndex + 1 ≤ s.questions.length
    rw [List.getElem?_eq_some] at hq
    have hlt : s.currentQuestionIndex < s.questions.length := hq.1
    omega

theorem endQuestion_score_mono (s : GameState) (k : String) (p : Player)
    (hp : mapFind s.players k = some p) :
    ∃ p2, mapFind (endQuestion s).players k = some p2 ∧ p.score ≤ p2.score := by
  unfold endQuestion
  cases hq : s.questions[s.currentQuestionIndex]? with
  | none => exact ⟨p, hp, le_refl _⟩
  | some q => exact mapFind_foldl_score_mono _ _ _ _ hp

theorem handleAnswer_score_mono (s : GameState) (pid : String) (ans : Option String)
    (t : Nat) (k : String) (p : Player) (hp : mapFind s.players k = some p) :
    ∃ p2, mapFind (handleAnswer s pid ans t).players k = some p2 ∧ p.score ≤ p2.score := by
  unfold handleAnswer
  by_cases hdup : s.currentQuestionAnswers.contains pid = true
  · rw [if_pos hdup]
    exact ⟨p, hp, le_refl _⟩
  · rw [if_neg hdup]
    cases hq : s.questions[s.currentQuestionIndex]? with
    | none => exact ⟨p, hp, le_refl _⟩
    | some q =>
      dsimp only
      by_cases hall : (s.currentQuestionAnswers ++ [pid]).length = s.players.length
      · rw [if_pos hall]
        exact endQuestion_score_mono _ _ _ hp
      · rw [if_neg hall]
        exact ⟨p, hp, le_refl _⟩

theorem handleAnswer_projs (s : GameState) (pid : String) (ans : Option String) (t : Nat) :
    s.currentQuestionIndex ≤ (handleAnswer s pid ans t).currentQuestionIndex ∧
    (handleAnswer s pid ans t).questions = s.questions ∧
    (handleAnswer s pid ans t).questionCount = s.questionCount ∧
    (s.currentQuestionIndex ≤ s.questions.length →
      (handleAnswer s pid ans t).currentQuestionIndex ≤
        (handleAnswer s pid ans t).questions.length) := by
  unfold handleAnswer
  by_cases hdup : s.currentQuestionAnswers.contains pid = true
  · rw [if_pos hdup]
    exact ⟨le_refl _, rfl, rfl, fun h => h⟩
  · rw [if_neg hdup]
    cases hq : s.questions[s.currentQuestionIndex]? with
    | none => exact ⟨le_refl _, rfl, rfl, fun h => h⟩
    | some q =>
      dsimp only
      by_cases hall : (s.currentQuestionAnswers ++ [pid]).length = s.players.length
      · rw [if_pos hall]
        exact ⟨endQuestion_index_le _ (le_refl _), endQuestion_questions _,
          endQuestion_questionCount _, fun h => endQuestion_index_bound _ h⟩
      · rw [if_neg hall]
        exact ⟨le_refl _, rfl, rfl, fun h => h⟩

theorem timerTick_projs (s : GameState) :
    s.currentQuestionIndex ≤ (timerTick s).currentQuestionIndex ∧
    (timerTick s).questions = s.questions ∧
    (timerTick s).questionCount = s.questionCount ∧
    (s.currentQuestionIndex ≤ s.questions.length →
      (timerTick s).currentQuestionIndex ≤ (timerTick s).questions.length) := by
  unfold timerTick
  cases ht : s.timer with
  | none =>
    exact ⟨endQuestion_index_le s (le_refl _), endQuestion_questions s,
      endQuestion_questionCount s, fun h => endQuestion_index_bound s h⟩
  | some t =>
    dsimp only
    by_cases h0 : t = 0
    · rw [if_pos h0]
      exact ⟨endQuestion_index_le s (le_refl _), endQuestion_questions s,
        endQuestion_questionCount s, fun h => endQuestion_index_bound s h⟩
    · rw [if_neg h0]
      exact ⟨le_refl _, rfl, rfl, fun h => h⟩

theorem timerTick_score_mono (s : GameState) (k : String) (p : Player)
    (hp : mapFind s.players k = some p) :
    ∃ p2, mapFind (timerTick s).players k = some p2 ∧ p.score ≤ p2.score := by
  unfold timerTick
  cases ht : s.timer with
  | none => exact endQuestion_score_mono s k p hp
  | some t =>
    dsimp only
    by_cases h0 : t = 0
    · rw [if_pos h0]
      exact endQuestion_score_mono s k p hp
    · rw [if_neg h0]
      exact ⟨p, hp, le_refl _⟩

theorem nextQuestion_projs (s : GameState) :
    (nextQuestion s).currentQuestionIndex = s.currentQuestionIndex ∧
    (nextQuestion s).questions = s.questions ∧
    (nextQuestion s).questionCount = s.questionCount ∧
    (nextQuestion s).players = s.players := by
  unfold nextQuestion endGame
  by_cases hend : s.questions.length ≤ s.currentQuestionIndex
  · rw [if_pos hend]
    exact ⟨rfl, rfl, rfl, rfl⟩
  · rw [if_neg hend]
    exact ⟨rfl, rfl, rfl, rfl⟩

theorem step_join_projs (s : GameState) (pid pname : String) :
    (step s (Event.join pid pname)).currentQuestionIndex = s.currentQuestionIndex ∧
    (step s (Event.join pid pname)).questions = s.questions ∧
    (step s (Event.join pid pname)).questionCount = s.questionCount := by
  simp only [step]
  unfold handleJoin
  by_cases hs : s.status ≠ Status.lobby
  · rw [if_pos hs]
    exact ⟨rfl, rfl, rfl⟩
  · rw [if_neg hs]
    exact ⟨rfl, rfl, rfl⟩

theorem step_start_projs (s : GameState) (pid : String) (bank : List Question) :
    (step s (Event.start pid bank)).currentQuestionIndex = s.currentQuestionIndex ∧
    (step s (Event.start pid bank)).questionCount = s.questionCount ∧
    (step s (Event.start pid bank)).players = s.players ∧
    ((step s (Event.start pid bank)).questions = s.questions ∨
      (step s (Event.start pid bank)).questions = bank.take s.questionCount) := by
  simp only [step]
  unfold handleStart loadQuestions
  by_cases hh : (!startCallerIsHost s pid) = true
  · rw [if_pos hh]
    exact ⟨rfl, rfl, rfl, Or.inl rfl⟩
  · rw [if_neg hh]
    by_cases hl : s.players.length < 2
    · rw [if_pos hl]
      exact ⟨rfl, rfl, rfl, Or.inl rfl⟩
    · rw [if_neg hl]
      exact ⟨rfl, rfl, rfl, Or.inr rfl⟩

/-! Claims. -/

/-- Claim C1: with the default configuration (basePoints 100, speed bonus 10
per second) and a 15 second limit and no streak, a correct answer at 3000 ms
scores 220 and one at exactly 15000 ms scores 100; and the answer route awards
0 points to every incorrect or absent submission. -/
theorem c1_default_scoring :
    calculatePoints 3000 15 0 defaultScoringConfig = 220 ∧
    calculatePoints 15000 15 0 defaultScoringConfig = 100 ∧
    ∀ (ans : Option String) (correct : String) (t limit : Nat) (prev : List Bool),
      ans ≠ some correct → routePointsEarned ans correct t limit prev = 0 := by
  refine ⟨by decide, by decide, ?_⟩
  intro ans correct t limit prev h
  simp [routePointsEarned, h]

/-- Witness for C1 at a concrete wrong submission. -/
theorem c1_default_scoring_witness :
    routePointsEarned (some "A") "C" 2000 15 [] = 0 :=
  c1_default_scoring.2.2 (some "A") "C" 2000 15 [] (by decide)

/-- Claim C2 is wrong about the code: the answer route reads only the last two
previous answers, so its consecutiveCorrect is at most 2, while calculatePoints
adds the streak bonus only when consecutiveCorrect is at least the threshold 3
(not consecutiveCorrect + 1). Hence on a third consecutive correct answer (two
previous correct, submitted at 3000 ms against a 15 second limit) the code
awards 220 without the 50 point bonus, and in general the points earned through
the route never include the streak bonus, for any history. -/
theorem c2_streak_bonus_unreachable :
    routeConsecutiveCorrect [true, true] = 2 ∧
    routePointsEarned (some "C") "C" 3000 15 [true, true] = 220 ∧
    ∀ (prev : List Bool) (t limit : Nat),
      calculatePoints t limit (routeConsecutiveCorrect prev) defaultScoringConfig =
        100 + (limit - (t + 999) / 1000) * 10 := by
  refine ⟨by decide, by decide, ?_⟩
  intro prev t limit
  have h1 : routeConsecutiveCorrect prev ≤ 2 := by
    have h2 := streakScan_le_length (prev.take 2)
    have h3 : (prev.take 2).length ≤ 2 := by simp [List.length_take]
    exact le_trans h2 h3
  have h4 : ¬ (3 ≤ routeConsecutiveCorrect prev) := by omega
  simp [calculatePoints, defaultScoringConfig, h4]

/-- Claim C6 fails on the code: the per-question answer set is cleared only by
nextQuestion, while endQuestion has already advanced currentQuestionIndex, so
a click during the reveal delay is admitted by the stale set and recorded
against the next question. In the concrete trace, player c clicks late during
the reveal of question 1 (recorded against question 2), the set is then
cleared, and a second submission by c for question 2 is accepted rather than a
no-op: the state changes again, two Answers are finalized for the same player
and question, and the question 2 reveal scores c twice, 1500 + 1200 = 2700
points. -/
theorem c6_double_answer_same_question :
    doubleAnswerState ≠ nextQuestion (handleAnswer revealDelayState "c" (some "B") 500) ∧
    (doubleAnswerState.answers.filter fun x =>
        x.playerId = "c" ∧ x.questionId = 2).length = 2 ∧
    (mapFind (endQuestion doubleAnswerState).players "c").map Player.score = some 2700 := by
  exact ⟨by decide, by decide, by decide⟩

/-- Claim C3 fails on the code: scoring the reveal of c3State adds 1000 points
(the fixed 1000 ms window bonus of GameRoom.endQuestion), while the canonical
calculatePoints at 3000 ms, a 15 second limit and zero streak yields 220. -/
theorem c3_actor_scoring_not_canonical :
    (mapFind (endQuestion c3State).players "p1").map Player.score = some 1000 ∧
    calculatePoints 3000 15 0 defaultScoringConfig = 220 ∧
    (mapFind (endQuestion c3State).players "p1").map Player.score ≠
      some (calculatePoints 3000 15 0 defaultScoringConfig) := by
  exact ⟨by decide, by decide, by decide⟩

/-- Claim C3 amended: at reveal time the actor adds, for each stored correct
answer, exactly 1000 + max(0, 1000 - elapsedMs) points, independent of any
streak: for a state whose stored answers for the current question are a single
correct answer, the score of that player grows by exactly the fixed window
bonus, not by calculatePoints. -/
theorem c3_amended_fixed_window_scoring (s : GameState) (q : Question) (a : Answer)
    (p : Player) (hq : s.questions[s.currentQuestionIndex]? = some q)
    (ha : s.answers.filter (fun x => x.questionId = q.id) = [a])
    (hc : a.isCorrect = true) (hp : mapFind s.players a.playerId = some p) :
    (mapFind (endQuestion s).players a.playerId).map Player.score =
      some (p.score + (1000 + (1000 - a.timeTakenMs))) := by
  simp only [endQuestion, hq, ha, List.foldl_cons, List.foldl_nil]
  unfold applyAnswerScore
  rw [if_pos hc, mapFind_mapUpdate, if_pos rfl, hp]
  rfl

/-- Witness for the amended C3 at the concrete 3000 ms state. -/
theorem c3_amended_fixed_window_scoring_witness :
    (mapFind (endQuestion c3State).players "p1").map Player.score =
      some (0 + (1000 + (1000 - 3000))) :=
  c3_amended_fixed_window_scoring c3State bankQuestion
    { playerId := "p1", questionId := 1, answer := some "C", isCorrect := true,
      timeTakenMs := 3000 }
    { id := "p1", name := "Alice", isHost := true, score := 0, ws := true }
    (by decide) (by decide) rfl (by decide)

/-- Claim C4 fails on the code: handleStart never checks the phase, so a start
call from the host while the game is already playing is accepted (re-entering
playing with a reloaded question list) rather than rejected. -/
theorem c4_start_accepted_while_playing :
    c4PlayingState.status = Status.playing ∧
    handleStart c4PlayingState "h" [bankQuestion] =
      Except.ok (loadQuestions { c4PlayingState with status := Status.playing }
        [bankQuestion]) := by
  exact ⟨rfl, rfl⟩

/-- Claim C4 amended: start is rejected, leaving the state unchanged, exactly
when the caller is unknown or not the host, or fewer than two players are in
the players map (every participant counts: the room model has no spectator
flag); the phase is never consulted, so a host call with at least two players
present is accepted whatever the current status. -/
theorem c4_amended_start_contract :
    (∀ (s : GameState) (pid : String) (bank : List Question),
      startCallerIsHost s pid = false →
        handleStart s pid bank = Except.error "Only host can start" ∧
        step s (Event.start pid bank) = s) ∧
    (∀ (s : GameState) (pid : String) (bank : List Question),
      startCallerIsHost s pid = true → s.players.length < 2 →
        handleStart s pid bank = Except.error "Need at least 2 players" ∧
        step s (Event.start pid bank) = s) ∧
    (∀ (s : GameState) (pid : String) (bank : List Question),
      startCallerIsHost s pid = true → 2 ≤ s.players.length →
        handleStart s pid bank =
          Except.ok (loadQuestions { s with status := Status.playing } bank)) := by
  refine ⟨?_, ?_, ?_⟩
  · intro s pid bank h
    have he : handleStart s pid bank = Except.error "Only host can start" := by
      unfold handleStart
      rw [h]
      rfl
    exact ⟨he, by simp [step, he]⟩
  · intro s pid bank h hlen
    have he : handleStart s pid bank = Except.error "Need at least 2 players" := by
      unfold handleStart
      rw [h]
      simp [hlen]
    exact ⟨he, by simp [step, he]⟩
  · intro s pid bank h hlen
    unfold handleStart
    rw [h]
    simp [Nat.not_lt.mpr hlen]

/-- Witness for the amended C4: a non-host start call on the concrete state is
rejected and changes nothing. -/
theorem c4_amended_start_contract_witness :
    handleStart c4PlayingState "g" [bankQuestion] = Except.error "Only host can start" ∧
    step c4PlayingState (Event.start "g" [bankQuestion]) = c4PlayingState :=
  c4_amended_start_contract.1 c4PlayingState "g" [bankQuestion] (by decide)

/-- Claim C5 fails on the code: handleJoin checks only the phase; a join is
accepted even when the player count already equals maxPlayers, growing the
roster past the limit. -/
theorem c5_join_accepted_when_full :
    c5FullLobby.players.length = c5FullLobby.maxPlayers ∧
    handleJoin c5FullLobby "p5" "Eve" = Except.ok { c5FullLobby with
      players := c5FullLobby.players ++
        [("p5", { id := "p5", name := "Eve", isHost := false, score := 0, ws := false })] } := by
  exact ⟨rfl, rfl⟩

/-- Claim C5 amended: join is rejected with an explicit error exactly when the
phase is not lobby; the maxPlayers limit is never enforced. On success the
Player is stored under the freshly generated id, appended to the roster, and
the updated roster is broadcast (a broadcast carries no state change). -/
theorem c5_amended_join_contract :
    (∀ (s : GameState) (pid pname : String), s.status ≠ Status.lobby →
      handleJoin s pid pname = Except.error "Game already started" ∧
      step s (Event.join pid pname) = s) ∧
    (∀ (s : GameState) (pid pname : String), s.status = Status.lobby →
      mapFind s.players pid = none →
      handleJoin s pid pname = Except.ok { s with players := s.players ++
        [(pid, { id := pid, name := pname, isHost := false, score := 0, ws := false })] }) := by
  constructor
  · intro s pid pname h
    have he : handleJoin s pid pname = Except.error "Game already started" := by
      unfold handleJoin
      rw [if_pos h]
    exact ⟨he, by simp [step, he]⟩
  · intro s pid pname h hfresh
    unfold handleJoin
    rw [if_neg fun hc => hc h]
    unfold mapSet
    rw [hfresh]
    rfl

/-- Witness for the amended C5: the fifth join on the full concrete lobby is
accepted and appended. -/
theorem c5_amended_join_contract_witness :
    handleJoin c5FullLobby "p5" "Eve" = Except.ok { c5FullLobby with
      players := c5FullLobby.players ++
        [("p5", { id := "p5", name := "Eve", isHost := false, score := 0, ws := false })] } :=
  c5_amended_join_contract.2 c5FullLobby "p5" "Eve" rfl (by decide)

/-- Claim C7 fails on the code: when the answering window of c7State expires,
no timeout Answer is synthesized for the silent player p2: the stored answers
stay exactly the submitted ones, none of them by p2, and p2 keeps score 0 (the
Player record has no streak counter that could be reset). -/
theorem c7_no_timeout_answer_recorded :
    (timerTick c7State).answers = c7State.answers ∧
    (c7State.answers.filter fun a => a.playerId = "p2") = [] ∧
    (mapFind (timerTick c7State).players "p2").map Player.score = some 0 := by
  exact ⟨by decide, by decide, by decide⟩

/-- Claim C7 amended: ending a question records nothing new: the answers list
is unchanged by endQuestion, and a player with no stored answer at all keeps an
unchanged record, so a silent player effectively receives zero points and no
Answer; there is no streak field to reset. -/
theorem c7_amended_no_timeout_synthesis (s : GameState) (pid : String) (p : Player)
    (hp : mapFind s.players pid = some p) (hnone : ∀ a ∈ s.answers, a.playerId ≠ pid) :
    (endQuestion s).answers = s.answers ∧
    mapFind (endQuestion s).players pid = some p := by
  unfold endQuestion
  cases hq : s.questions[s.currentQuestionIndex]? with
  | none => exact ⟨rfl, hp⟩
  | some q =>
    refine ⟨rfl, ?_⟩
    show mapFind (List.foldl applyAnswerScore s.players _) pid = some p
    rw [mapFind_foldl_not_mentioned]
    · exact hp
    · intro a ha
      exact hnone a (List.mem_filter.mp ha).1

/-- Witness for the amended C7 at the concrete expired-window state. -/
theorem c7_amended_no_timeout_synthesis_witness :
    (endQuestion c7State).answers = c7State.answers ∧
    mapFind (endQuestion c7State).players "p2" =
      some { id := "p2", name := "Bob", isHost := false, score := 0, ws := true } :=
  c7_amended_no_timeout_synthesis c7State "p2"
    { id := "p2", name := "Bob", isHost := false, score := 0, ws := true }
    (by decide) (by decide)

/-- Claim C10: the results computation is division safe: calculateAccuracy
returns 0 whenever the total is 0, and every entry of the handleGetResults
player list with zero recorded answers reports accuracy 0. -/
theorem c10_results_division_safe :
    (∀ correct : Nat, calculateAccuracy correct 0 = 0) ∧
    ∀ (s : GameState) (ps : PlayerStats), ps ∈ (handleGetResults s).players →
      ps.totalAnswers = 0 → ps.accuracy = 0 := by
  refine ⟨fun c => by simp [calculateAccuracy], ?_⟩
  intro s ps hmem h0
  have hmem2 : ps ∈ s.players.map fun kv => playerStats s kv := by
    simp only [handleGetResults] at hmem
    exact (List.mergeSort_perm _ _).mem_iff.mp hmem
  obtain ⟨kv, hkv, rfl⟩ := List.mem_map.mp hmem2
  simp only [playerStats] at h0 ⊢
  simp [h0]

/-- Witness for C10: the answerless player of the concrete state reports
accuracy 0 in the results payload. -/
theorem c10_results_division_safe_witness :
    (playerStats c10State ("p2",
      { id := "p2", name := "Bob", isHost := false, score := 0, ws := false })).accuracy = 0 :=
  c10_results_division_safe.2 c10State _
    (by
      have hp : (handleGetResults c10State).players =
          List.mergeSort (c10State.players.map fun kv => playerStats c10State kv)
            (fun a b => b.score ≤ a.score) := rfl
      rw [hp]
      exact (List.mergeSort_perm _ _).mem_iff.mpr (by decide))
    (by decide)

/-- Claim C8: no processed event decreases the score of any player: init, join,
start, answer submission, the timer tick, the deferred advance to the next
question, attach and detach all preserve or grow the score of every player
already present. Join and init carry a fresh id from crypto.randomUUID,
recorded by the freshness side condition. -/
theorem c8_score_monotone (s : GameState) (e : Event) (hf : e.freshIds s)
    (k : String) (p : Player) (hp : mapFind s.players k = some p) :
    ∃ p2, mapFind (step s e).players k = some p2 ∧ p.score ≤ p2.score := by
  cases e with
  | init rc hn qc mp hostId =>
    have hf2 : mapFind s.players hostId = none := hf
    refine ⟨p, ?_, le_refl _⟩
    show mapFind (mapSet s.players hostId _) k = some p
    unfold mapSet
    rw [if_neg (by rw [hf2]; simp)]
    exact mapFind_append_some _ _ _ _ hp
  | join pid pname =>
    have hf2 : mapFind s.players pid = none := hf
    simp only [step]
    unfold handleJoin
    by_cases hs : s.status ≠ Status.lobby
    · rw [if_pos hs]
      exact ⟨p, hp, le_refl _⟩
    · rw [if_neg hs]
      refine ⟨p, ?_, le_refl _⟩
      show mapFind (mapSet s.players pid _) k = some p
      unfold mapSet
      rw [if_neg (by rw [hf2]; simp)]
      exact mapFind_append_some _ _ _ _ hp
  | start pid bank =>
    rw [(step_start_projs s pid bank).2.2.1]
    exact ⟨p, hp, le_refl _⟩
  | answer pid ans t => exact handleAnswer_score_mono s pid ans t k p hp
  | tick => exact timerTick_score_mono s k p hp
  | advance =>
    show ∃ p2, mapFind (nextQuestion s).players k = some p2 ∧ p.score ≤ p2.score
    rw [(nextQuestion_projs s).2.2.2]
    exact ⟨p, hp, le_refl _⟩
  | attach pid =>
    show ∃ p2, mapFind (attachChannel s pid).players k = some p2 ∧ p.score ≤ p2.score
    unfold attachChannel
    dsimp only
    rw [mapFind_mapUpdate]
    by_cases hk : k = pid
    · rw [if_pos hk, hp]
      exact ⟨_, rfl, le_refl _⟩
    · rw [if_neg hk, hp]
      exact ⟨p, rfl, le_refl _⟩
  | detach pid =>
    show ∃ p2, mapFind (detachChannel s pid).players k = some p2 ∧ p.score ≤ p2.score
    unfold detachChannel
    dsimp only
    rw [mapFind_mapUpdate]
    by_cases hk : k = pid
    · rw [if_pos hk, hp]
      exact ⟨_, rfl, le_refl _⟩
    · rw [if_neg hk, hp]
      exact ⟨p, rfl, le_refl _⟩

/-- Witness for C8: a tick on the concrete state keeps the score of p1 at
least 120. -/
theorem c8_score_monotone_witness :
    ∃ p2, mapFind (step dupState Event.tick).players "p1" = some p2 ∧ 120 ≤ p2.score :=
  c8_score_monotone dupState Event.tick True.intro "p1"
    { id := "p1", name := "Alice", isHost := true, score := 120, ws := true } (by decide)

/-- Claim C9: the current question index never decreases under any processed
event; and along session events (everything but the one-time creation init,
with every start shuffling the fixed bank) it stays bounded by the length of
the loaded question list: endQuestion increments it only while a question at
the index exists, and nextQuestion past the end only finishes the game. -/
theorem c9_index_monotone_bounded :
    (∀ (s : GameState) (e : Event),
      s.currentQuestionIndex ≤ (step s e).currentQuestionIndex) ∧
    (∀ (s : GameState) (e : Event), e.isSessionEvent → e.fixedBank → IndexInv s →
      IndexInv (step s e)) := by
  constructor
  · intro s e
    cases e with
    | init rc hn qc mp hostId => exact le_refl _
    | join pid pname => exact le_of_eq (step_join_projs s pid pname).1.symm
    | start pid bank => exact le_of_eq (step_start_projs s pid bank).1.symm
    | answer pid ans t => exact (handleAnswer_projs s pid ans t).1
    | tick => exact (timerTick_projs s).1
    | advance => exact le_of_eq (nextQuestion_projs s).1.symm
    | attach pid => exact le_refl _
    | detach pid => exact le_refl _
  · intro s e hsess hbank hinv
    cases e with
    | init rc hn qc mp hostId => exact absurd hsess (fun h => h)
    | join pid pname =>
      obtain ⟨h1, h2, h3⟩ := step_join_projs s pid pname
      refine ⟨?_, ?_⟩
      · rw [h1, h2]
        exact hinv.1
      · rw [h2, h3]
        exact hinv.2
    | start pid bank =>
      have hb : bank.length = questionBankLength := hbank
      obtain ⟨h1, h2, _, h4⟩ := step_start_projs s pid bank
      cases h4 with
      | inl hsame =>
        refine ⟨?_, ?_⟩
        · rw [h1, hsame]
          exact hinv.1
        · rw [hsame, h2]
          exact hinv.2
      | inr hnew =>
        have hlen : (step s (Event.start pid bank)).questions.length =
            min s.questionCount questionBankLength := by
          rw [hnew, List.length_take, hb]
        refine ⟨?_, ?_⟩
        · rw [h1, hlen]
          rcases hinv.2 with h0 | hq
          · have hz : s.currentQuestionIndex = 0 := by
              have := hinv.1
              omega
            rw [hz]
            exact Nat.zero_le _
          · rw [← hq]
            exact hinv.1
        · right
          rw [hlen, h2]
    | answer pid ans t =>
      obtain ⟨h1, h2, h3, h4⟩ := handleAnswer_projs s pid ans t
      refine ⟨h4 hinv.1, ?_⟩
      show (handleAnswer s pid ans t).questions.length = 0 ∨
        (handleAnswer s pid ans t).questions.length =
          min (handleAnswer s pid ans t).questionCount questionBankLength
      rw [h2, h3]
      exact hinv.2
    | tick =>
      obtain ⟨h1, h2, h3, h4⟩ := timerTick_projs s
      refine ⟨h4 hinv.1, ?_⟩
      show (timerTick s).questions.length = 0 ∨
        (timerTick s).questions.length = min (timerTick s).questionCount questionBankLength
      rw [h2, h3]
      exact hinv.2
    | advance =>
      obtain ⟨h1, h2, h3, _⟩ := nextQuestion_projs s
      refine ⟨?_, ?_⟩
      · show (nextQuestion s).currentQuestionIndex ≤ (nextQuestion s).questions.length
        rw [h1, h2]
        exact hinv.1
      · show (nextQuestion s).questions.length = 0 ∨
          (nextQuestion s).questions.length =
            min (nextQuestion s).questionCount questionBankLength
        rw [h2, h3]
        exact hinv.2
    | attach pid => exact hinv
    | detach pid => exact hinv

/-- Witness for C9 at the concrete one-question state under a tick. -/
theorem c9_index_monotone_bounded_witness :
    IndexInv (step c3State Event.tick) :=
  c9_index_monotone_bounded.2 c3State Event.tick True.intro True.intro
    ⟨by decide, Or.inr (by decide)⟩

end Trivia
